import Mathlib

/-!
Shallow embedding of the detection-and-counting core of
`MotionDetectionCounter` (src/main.py) and proofs of the spec's claims
about it.  The embedded functions are the shape classifier
`is_box_like_shape`, the duplicate test `is_duplicate_object`, the
crossing test `has_crossed_line`, the per-candidate counting step inside
`process_frame`, the bounded `deque(maxlen=100)` history, and the
`reset` triggered by the 'r' key in `run`.  Pixel coordinates are
integers (ℤ/ℕ, as delivered by `cv2.boundingRect`); areas, ratios and
the distance threshold are modelled as exact rationals (ℚ) standing for
Python floats.
-/

namespace MotionCount

/-- Construction-time configuration of `MotionDetectionCounter.__init__`:
`counting_line_y`, `min_area`, `max_area`, `distance_threshold` and the
two components of `aspect_ratio_range`. -/
structure Config where
  counting_line_y : ℤ
  min_area : ℚ
  max_area : ℚ
  distance_threshold : ℚ
  aspect_ratio_lo : ℚ
  aspect_ratio_hi : ℚ
deriving DecidableEq

/-- The defaults of `__init__` (also the values passed by `main()`):
line y 250, area 1000–50000, distance threshold 50, ratio range 0.3–3.0. -/
def defaultConfig : Config :=
  ⟨250, 1000, 50000, 50, 3/10, 3⟩

/-- A centroid `(center_x, center_y)` in pixel coordinates. -/
abbrev Centroid := ℤ × ℤ

/-- A bounding box `(x, y, w, h)` as returned by `cv2.boundingRect`. -/
abbrev BBox := ℤ × ℤ × ℕ × ℕ

/-- A contour as the shape classifier observes it: its bounding
rectangle `x, y, w, h` (from `cv2.boundingRect`, so `w` and `h` are
nonnegative integers) and its area (from `cv2.contourArea`). -/
structure Contour where
  x : ℤ
  y : ℤ
  w : ℕ
  h : ℕ
  area : ℚ
deriving DecidableEq

/-- Line 63 of the source: `aspect_ratio = w / h if h > 0 else 0`. -/
def aspect_ratio_value (c : Contour) : ℚ :=
  if 0 < c.h then (c.w : ℚ) / (c.h : ℚ) else 0

/-- `MotionDetectionCounter.is_box_like_shape` (source lines 52–78).
The source returns the triple `(False, None, None)` on rejection and
`(True, center, bbox)` on acceptance; we embed that as
`Option (Centroid × BBox)`.  Checks in source order: area bounds,
aspect-ratio range (with the `h > 0` guard of `aspect_ratio_value`),
then — only when `rect_area > 0` — the solidity bound `area / rect_area
≥ 0.3`.  The centroid is the integer bounding-box midpoint
`(x + w // 2, y + h // 2)`. -/
def is_box_like_shape (cfg : Config) (c : Contour) : Option (Centroid × BBox) :=
  if c.area < cfg.min_area ∨ cfg.max_area < c.area then none
  else if ¬ (cfg.aspect_ratio_lo ≤ aspect_ratio_value c ∧
             aspect_ratio_value c ≤ cfg.aspect_ratio_hi) then none
  else if 0 < c.w * c.h ∧ c.area / ((c.w * c.h : ℕ) : ℚ) < 3/10 then none
  else some ((c.x + ((c.w / 2 : ℕ) : ℤ), c.y + ((c.h / 2 : ℕ) : ℤ)),
             (c.x, c.y, c.w, c.h))

/-- `MotionDetectionCounter.is_duplicate_object` (source lines 80–88).
The source tests `np.sqrt((cx-px)**2 + (cy-py)**2) < threshold` for each
entry of `tracked_objects`; over the reals `√d < t` is equivalent to
`0 < t ∧ d < t²` (the two squared-distance quantities involved are exact
integers), which is the decidable form used here.  The theorem
`duplicate_iff_close_in_history` below re-derives the source's
square-root formulation from this definition. -/
def is_duplicate_object (cfg : Config) (tracked : List Centroid)
    (c : Centroid) : Bool :=
  tracked.any fun p =>
    decide (0 < cfg.distance_threshold ∧
      ((c.1 : ℚ) - (p.1 : ℚ))^2 + ((c.2 : ℚ) - (p.2 : ℚ))^2
        < cfg.distance_threshold ^ 2)

/-- `MotionDetectionCounter.has_crossed_line` (source lines 90–94):
`abs(cy - self.counting_line_y) <= 10`, with the tolerance 10 a literal
in the source. -/
def has_crossed_line (cfg : Config) (c : Centroid) : Bool :=
  decide (|c.2 - cfg.counting_line_y| ≤ 10)

/-- The counting state of a `MotionDetectionCounter` session:
`self.object_count` and `self.tracked_objects`
(a `deque(maxlen=100)`, oldest entry first). -/
structure CounterState where
  object_count : ℕ
  tracked_objects : List Centroid
deriving DecidableEq

/-- The state right after `__init__`: count 0, empty history. -/
def initialState : CounterState := ⟨0, []⟩

/-- `deque(maxlen=100).append`: append at the right; when the deque is
full the leftmost (oldest) entry is discarded. -/
def dequeAppend (l : List Centroid) (c : Centroid) : List Centroid :=
  if l.length < 100 then l ++ [c] else l.tail ++ [c]

/-- The per-candidate decision inside `process_frame` (source lines
118–123): if the centroid has crossed the line and is not a duplicate,
increment `object_count` and append the centroid to `tracked_objects`;
otherwise leave the state unchanged.  The returned Bool records whether
this candidate was counted. -/
def considerCentroid (cfg : Config) (s : CounterState) (c : Centroid) :
    CounterState × Bool :=
  if has_crossed_line cfg c && ! is_duplicate_object cfg s.tracked_objects c then
    (⟨s.object_count + 1, dequeAppend s.tracked_objects c⟩, true)
  else (s, false)

/-- The contour loop of `MotionDetectionCounter.process_frame` (source
lines 113–127): each contour is classified; accepted candidates go
through the counting decision one at a time (mutating the state
immediately) and are all appended to `detected_objects`.  Besides the
final state and the detected list we also record the per-candidate
counted/not-counted decisions, which the source only prints. -/
def process_frame (cfg : Config) (s : CounterState) :
    List Contour → CounterState × List (Centroid × BBox) × List Bool
  | [] => (s, ([], []))
  | ct :: rest =>
    match is_box_like_shape cfg ct with
    | none => process_frame cfg s rest
    | some cb =>
      let r := considerCentroid cfg s cb.1
      let tail := process_frame cfg r.1 rest
      (tail.1, (cb :: tail.2.1, r.2 :: tail.2.2))

/-- The reset branch of `run` (source lines 280–283, key 'r'):
`object_count = 0` and `tracked_objects.clear()`. -/
def reset (_s : CounterState) : CounterState := ⟨0, []⟩

/-- A session-level operation: processing one frame's contours, or the
external reset trigger. -/
inductive Op where
  | frame : List Contour → Op
  | rst : Op

/-- Apply one operation to the counting state. -/
def applyOp (cfg : Config) (s : CounterState) : Op → CounterState
  | .frame f => (process_frame cfg s f).1
  | .rst => reset s

/-- Run a sequence of operations from a state. -/
def runOps (cfg : Config) (s : CounterState) : List Op → CounterState
  | [] => s
  | op :: rest => runOps cfg (applyOp cfg s op) rest

/-- Process a list of frames in order, collecting every per-candidate
counting decision across all of them. -/
def processFrames (cfg : Config) (s : CounterState) :
    List (List Contour) → CounterState × List Bool
  | [] => (s, [])
  | f :: rest =>
    let r := process_frame cfg s f
    let tail := processFrames cfg r.1 rest
    (tail.1, r.2.2 ++ tail.2)

/-! ### Helper lemmas -/

/-- For a nonnegative rational `d`, the real comparison `√d < t` used by
the source (`np.sqrt(...) < threshold`) is equivalent to the decidable
rational comparison `0 < t ∧ d < t²` used in the embedding. -/
lemma sqrt_lt_rat_iff (d t : ℚ) :
    Real.sqrt (d : ℝ) < (t : ℝ) ↔ 0 < t ∧ d < t ^ 2 := by
  constructor
  · intro hlt
    have ht : (0 : ℝ) < (t : ℝ) := lt_of_le_of_lt (Real.sqrt_nonneg _) hlt
    have h2 : (d : ℝ) < (t : ℝ) ^ 2 := (Real.sqrt_lt' ht).mp hlt
    refine ⟨by exact_mod_cast ht, ?_⟩
    have : ((d : ℝ)) < ((t ^ 2 : ℚ) : ℝ) := by push_cast; exact h2
    exact_mod_cast this
  · rintro ⟨ht, h2⟩
    have ht' : (0 : ℝ) < (t : ℝ) := by exact_mod_cast ht
    refine (Real.sqrt_lt' ht').mpr ?_
    have : ((d : ℚ) : ℝ) < ((t ^ 2 : ℚ) : ℝ) := by exact_mod_cast h2
    calc (d : ℝ) < ((t ^ 2 : ℚ) : ℝ) := this
    _ = (t : ℝ) ^ 2 := by push_cast; ring

/-- The embedded duplicate test agrees with the source's square-root
formulation: a centroid is flagged as a duplicate exactly when some
history entry lies at Euclidean distance strictly below the threshold. -/
lemma is_duplicate_object_iff (cfg : Config) (tracked : List Centroid)
    (c : Centroid) :
    is_duplicate_object cfg tracked c = true ↔
      ∃ p ∈ tracked,
        Real.sqrt (((c.1 : ℝ) - (p.1 : ℝ)) ^ 2 + ((c.2 : ℝ) - (p.2 : ℝ)) ^ 2)
          < (cfg.distance_threshold : ℝ) := by
  unfold is_duplicate_object
  rw [List.any_eq_true]
  constructor
  · rintro ⟨p, hp, hdec⟩
    rw [decide_eq_true_eq] at hdec
    refine ⟨p, hp, ?_⟩
    have := (sqrt_lt_rat_iff _ cfg.distance_threshold).mpr hdec
    have hcast :
        ((((c.1 : ℚ) - (p.1 : ℚ))^2 + ((c.2 : ℚ) - (p.2 : ℚ))^2 : ℚ) : ℝ)
          = ((c.1 : ℝ) - (p.1 : ℝ)) ^ 2 + ((c.2 : ℝ) - (p.2 : ℝ)) ^ 2 := by
      push_cast; ring
    rwa [hcast] at this
  · rintro ⟨p, hp, hlt⟩
    refine ⟨p, hp, ?_⟩
    rw [decide_eq_true_eq]
    refine (sqrt_lt_rat_iff _ cfg.distance_threshold).mp ?_
    have hcast :
        ((((c.1 : ℚ) - (p.1 : ℚ))^2 + ((c.2 : ℚ) - (p.2 : ℚ))^2 : ℚ) : ℝ)
          = ((c.1 : ℝ) - (p.1 : ℝ)) ^ 2 + ((c.2 : ℝ) - (p.2 : ℝ)) ^ 2 := by
      push_cast; ring
    rwa [hcast]

/-! ### Claims -/

/-- C5: the duplicate test reports a match iff some entry of the entire
current history lies at Euclidean distance strictly less than
`distance_threshold` from the candidate centroid; in particular a
centroid at distance exactly the threshold from every entry is not a
duplicate (the comparison is strict). -/
theorem duplicate_iff_close_in_history (cfg : Config)
    (tracked : List Centroid) (c : Centroid) :
    is_duplicate_object cfg tracked c = true ↔
      ∃ p ∈ tracked,
        Real.sqrt (((c.1 : ℝ) - (p.1 : ℝ)) ^ 2 + ((c.2 : ℝ) - (p.2 : ℝ)) ^ 2)
          < (cfg.distance_threshold : ℝ) :=
  is_duplicate_object_iff cfg tracked c

/-- C6: the crossing test is true iff `|center_y - counting_line_y| ≤ 10`
(inclusive bound, tolerance 10 a fixed literal of the source), and the
x coordinate of the centroid has no influence on it. -/
theorem crossing_test_iff_band (cfg : Config) (x x' y : ℤ) :
    (has_crossed_line cfg (x, y) = true ↔ |y - cfg.counting_line_y| ≤ 10) ∧
    has_crossed_line cfg (x, y) = has_crossed_line cfg (x', y) := by
  constructor
  · simp [has_crossed_line]
  · rfl

/-- C1: the per-candidate decision of the crossing tracker.  When the
centroid is at the line and matches no history entry, `object_count`
goes up by exactly 1, the centroid is appended through the bounded-deque
append (which evicts the oldest entry when the history is full) and the
call reports `true`; in every other case the call reports `false` and
the state is unchanged. -/
theorem count_decision_spec (cfg : Config) (s : CounterState) (c : Centroid) :
    ((has_crossed_line cfg c = true ∧
        is_duplicate_object cfg s.tracked_objects c = false) →
      considerCentroid cfg s c =
        (⟨s.object_count + 1, dequeAppend s.tracked_objects c⟩, true)) ∧
    (¬ (has_crossed_line cfg c = true ∧
        is_duplicate_object cfg s.tracked_objects c = false) →
      considerCentroid cfg s c = (s, false)) := by
  cases hcl : has_crossed_line cfg c <;>
    cases hdup : is_duplicate_object cfg s.tracked_objects c <;>
      simp [considerCentroid, hcl, hdup]

/-- Witness for C1: at the concrete centroid `(100, 250)` with the
default line y 250 and empty history, the candidate is counted and the
state becomes count 1, history `[(100, 250)]`. -/
theorem count_decision_spec_witness :
    has_crossed_line defaultConfig (100, 250) = true ∧
    is_duplicate_object defaultConfig [] (100, 250) = false ∧
    considerCentroid defaultConfig initialState (100, 250) =
      (⟨1, [(100, 250)]⟩, true) := by
  refine ⟨by decide, by decide, ?_⟩
  have h := (count_decision_spec defaultConfig initialState (100, 250)).1
    ⟨by decide, by decide⟩
  simpa [initialState, dequeAppend] using h


/-- Membership of the just-appended centroid in a bounded-deque append:
both branches end in `++ [c]`. -/
lemma mem_dequeAppend (l : List Centroid) (c : Centroid) :
    c ∈ dequeAppend l c := by
  unfold dequeAppend
  split <;> simp

/-- A counted decision forces the then-branch of `considerCentroid`. -/
lemma considerCentroid_counted (cfg : Config) (s s' : CounterState)
    (c : Centroid) (h : considerCentroid cfg s c = (s', true)) :
    has_crossed_line cfg c = true ∧
      s' = ⟨s.object_count + 1, dequeAppend s.tracked_objects c⟩ := by
  unfold considerCentroid at h
  split at h
  case isTrue hcond =>
    rw [Bool.and_eq_true] at hcond
    exact ⟨hcond.1, (congrArg Prod.fst h).symm⟩
  case isFalse =>
    simp at h

/-- C7: the reset sets `object_count` to 0 and empties the history in a
single step (both fields of the resulting state are written by the one
`reset` application — no partial-reset path), and a candidate that was
counted before a reset is counted again right after it, bringing
`object_count` to 1. -/
theorem reset_clears_and_recounts (cfg : Config) (s s' : CounterState)
    (c : Centroid) (h : (considerCentroid cfg s c).2 = true) :
    reset s' = ⟨0, []⟩ ∧
    considerCentroid cfg (reset s') c = (⟨1, [c]⟩, true) := by
  refine ⟨rfl, ?_⟩
  rcases hE : considerCentroid cfg s c with ⟨s1, b⟩
  rw [hE] at h
  simp only at h
  subst h
  obtain ⟨hcl, -⟩ := considerCentroid_counted cfg s s1 c hE
  have hdup : is_duplicate_object cfg (reset s').tracked_objects c = false := rfl
  have := (count_decision_spec cfg (reset s') c).1 ⟨hcl, hdup⟩
  simpa [reset, dequeAppend] using this

/-- Witness for C7: after counting `(100, 250)` into a session that has
reached count 5, a reset yields count 0 and empty history, and the same
centroid is counted again to total 1. -/
theorem reset_clears_and_recounts_witness :
    (considerCentroid defaultConfig ⟨5, [(300, 250)]⟩ (100, 250)).2 = true ∧
    reset ⟨6, [(300, 250), (100, 250)]⟩ = ⟨0, []⟩ ∧
    considerCentroid defaultConfig
      (reset ⟨6, [(300, 250), (100, 250)]⟩) (100, 250) = (⟨1, [(100, 250)]⟩, true) := by
  refine ⟨by with_unfolding_all decide, ?_⟩
  exact reset_clears_and_recounts defaultConfig ⟨5, [(300, 250)]⟩
    ⟨6, [(300, 250), (100, 250)]⟩ (100, 250) (by with_unfolding_all decide)

/-- Bounds carried by any accepted contour, for any configuration whose
lower aspect-ratio bound is positive (the `h > 0` guard then forces a
genuine positive-height, positive-width box, so the ratio and solidity
denominators are nonzero). -/
lemma accepted_bounds_general (cfg : Config) (c : Contour)
    (hlo : 0 < cfg.aspect_ratio_lo)
    (hacc : (is_box_like_shape cfg c).isSome = true) :
    (cfg.min_area ≤ c.area ∧ c.area ≤ cfg.max_area) ∧
    (cfg.aspect_ratio_lo ≤ (c.w : ℚ) / (c.h : ℚ) ∧
      (c.w : ℚ) / (c.h : ℚ) ≤ cfg.aspect_ratio_hi) ∧
    (3/10 : ℚ) ≤ c.area / ((c.w : ℚ) * (c.h : ℚ)) := by
  unfold is_box_like_shape at hacc
  split_ifs at hacc with h1 h2 h3 <;> try simp at hacc
  push_neg at h1
  have hh : 0 < c.h := by
    by_contra hh0
    have : aspect_ratio_value c = 0 := by
      unfold aspect_ratio_value
      simp [hh0]
    rw [this] at h2
    linarith [h2.1]
  have har : aspect_ratio_value c = (c.w : ℚ) / (c.h : ℚ) := by
    unfold aspect_ratio_value
    simp [hh]
  rw [har] at h2
  have hw : 0 < c.w := by
    by_contra hw0
    have hw0' : c.w = 0 := by omega
    rw [hw0'] at h2
    simp at h2
    linarith [h2.1]
  have hwh : 0 < c.w * c.h := Nat.mul_pos hw hh
  have hsol : ¬ (c.area / ((c.w * c.h : ℕ) : ℚ) < 3/10) := fun hc => h3 ⟨hwh, hc⟩
  push_neg at hsol
  refine ⟨⟨h1.1, h1.2⟩, ⟨h2.1, h2.2⟩, ?_⟩
  have hcast : ((c.w * c.h : ℕ) : ℚ) = (c.w : ℚ) * (c.h : ℚ) := by push_cast; ring
  rwa [hcast] at hsol

/-- C2: with the default configuration (minArea 1000, maxArea 50000,
ratio range 0.3–3.0), every contour accepted by `is_box_like_shape`
has area within the bounds, bounding-box aspect ratio `w / h` within
the range, and solidity `area / (w * h)` at least 0.3. -/
theorem accepted_candidate_bounds (c : Contour)
    (hacc : (is_box_like_shape defaultConfig c).isSome = true) :
    ((1000 : ℚ) ≤ c.area ∧ c.area ≤ 50000) ∧
    ((3/10 : ℚ) ≤ (c.w : ℚ) / (c.h : ℚ) ∧ (c.w : ℚ) / (c.h : ℚ) ≤ 3) ∧
    (3/10 : ℚ) ≤ c.area / ((c.w : ℚ) * (c.h : ℚ)) := by
  have h := accepted_bounds_general defaultConfig c (by norm_num [defaultConfig]) hacc
  simpa [defaultConfig] using h

/-- Witness for C2: the contour with bounding box 50×50 and area 2000
is accepted by the default configuration, and its solidity bound holds. -/
theorem accepted_candidate_bounds_witness :
    (is_box_like_shape defaultConfig ⟨0, 0, 50, 50, 2000⟩).isSome = true ∧
    (3/10 : ℚ) ≤ (2000 : ℚ) / ((50 : ℚ) * (50 : ℚ)) := by
  have hacc : (is_box_like_shape defaultConfig ⟨0, 0, 50, 50, 2000⟩).isSome = true := by
    with_unfolding_all decide
  refine ⟨hacc, ?_⟩
  have h2 := (accepted_candidate_bounds ⟨0, 0, 50, 50, 2000⟩ hacc).2.2
  push_cast at h2
  exact h2

/-- C8 counterexample: with a configuration whose aspect-ratio range is
(0, 3) — a value the constructor accepts — a contour whose bounding box
has height 0 is ACCEPTED (its guarded aspect ratio is 0, which lies in
the range, and the solidity test is skipped because the rectangle area
is 0), so the claim that a zero-height region is rejected regardless of
the configured range is false on the code. -/
theorem zero_height_accepted_cex :
    (is_box_like_shape ⟨250, 1000, 50000, 50, 0, 3⟩
        ⟨0, 0, 100, 0, 2000⟩).isSome = true := by
  with_unfolding_all decide

/-- C8 (amended): for every configuration whose lower aspect-ratio
bound is positive — in particular the default 0.3 — a region whose
bounding box has height 0 is rejected by the shape classifier, and the
rejection is an ordinary `none` result (silent, no error propagated). -/
theorem zero_height_rejected_when_lo_pos (cfg : Config) (x y : ℤ) (w : ℕ)
    (a : ℚ) (hlo : 0 < cfg.aspect_ratio_lo) :
    is_box_like_shape cfg ⟨x, y, w, 0, a⟩ = none := by
  unfold is_box_like_shape
  split_ifs with h1 h2 h3 <;> try rfl
  exfalso
  have hva : aspect_ratio_value ⟨x, y, w, 0, a⟩ = 0 := by
    unfold aspect_ratio_value
    simp
  rw [hva] at h2
  linarith [h2.1]

/-- Witness for C8's amended claim: under the default configuration the
zero-height contour of the counterexample is rejected. -/
theorem zero_height_rejected_witness :
    (0 : ℚ) < defaultConfig.aspect_ratio_lo ∧
    is_box_like_shape defaultConfig ⟨0, 0, 100, 0, 2000⟩ = none :=
  ⟨by norm_num [defaultConfig],
   zero_height_rejected_when_lo_pos defaultConfig 0 0 100 2000
     (by norm_num [defaultConfig])⟩

/-- C10: the classifier is a total function; when the height is 0 the
aspect ratio is defined to be 0 rather than failing, and when the
bounding-rectangle area `w * h` is 0 the solidity test is skipped
entirely, so acceptance is decided by the area and aspect-ratio checks
alone and the division `area / rect_area` is never reached with a zero
denominator. -/
theorem zero_rect_area_skips_solidity (cfg : Config) (c : Contour)
    (hz : c.w * c.h = 0) :
    (c.h = 0 → aspect_ratio_value c = 0) ∧
    ((is_box_like_shape cfg c).isSome = true ↔
      ((cfg.min_area ≤ c.area ∧ c.area ≤ cfg.max_area) ∧
       (cfg.aspect_ratio_lo ≤ aspect_ratio_value c ∧
        aspect_ratio_value c ≤ cfg.aspect_ratio_hi))) := by
  constructor
  · intro hh
    unfold aspect_ratio_value
    simp [hh]
  · unfold is_box_like_shape
    split_ifs with h1 h2 h3
    · simp only [Option.isSome_none, Bool.false_eq_true, false_iff]
      rintro ⟨⟨hmin, hmax⟩, -⟩
      rcases h1 with h1 | h1 <;> linarith
    · exact absurd h3.1 (by omega)
    · simp only [Option.isSome_some, true_iff]
      push_neg at h1
      exact ⟨⟨h1.1, h1.2⟩, h2⟩
    · simp only [Option.isSome_none, Bool.false_eq_true, false_iff]
      rintro ⟨-, hr⟩
      exact h2 hr

/-- Witness for C10: a width-0, height-7 contour under a configuration
whose ratio range starts at 0; its rectangle area is 0, its aspect
ratio is the guarded value `0 / 7 = 0`, and it is accepted exactly
because its area and aspect ratio pass. -/
theorem zero_rect_area_skips_solidity_witness :
    (0 : ℕ) * 7 = 0 ∧
    (((7 : ℕ) = 0 → aspect_ratio_value ⟨0, 0, 0, 7, 2000⟩ = 0) ∧
     ((is_box_like_shape ⟨250, 1000, 50000, 50, 0, 3⟩
          ⟨0, 0, 0, 7, 2000⟩).isSome = true ↔
       (((1000 : ℚ) ≤ 2000 ∧ (2000 : ℚ) ≤ 50000) ∧
        ((0 : ℚ) ≤ aspect_ratio_value ⟨0, 0, 0, 7, 2000⟩ ∧
         aspect_ratio_value ⟨0, 0, 0, 7, 2000⟩ ≤ 3)))) :=
  ⟨rfl, zero_rect_area_skips_solidity ⟨250, 1000, 50000, 50, 0, 3⟩
    ⟨0, 0, 0, 7, 2000⟩ rfl⟩

/-- One counting decision changes `object_count` by exactly the value
of its counted flag. -/
lemma considerCentroid_count_eq (cfg : Config) (s : CounterState)
    (c : Centroid) :
    (considerCentroid cfg s c).1.object_count
      = s.object_count + (if (considerCentroid cfg s c).2 = true then 1 else 0) := by
  unfold considerCentroid
  split <;> simp

/-- Over one frame, `object_count` grows by exactly the number of
`true` decisions taken in that frame. -/
lemma process_frame_count (cfg : Config) :
    ∀ (f : List Contour) (s : CounterState),
      (process_frame cfg s f).1.object_count
        = s.object_count + ((process_frame cfg s f).2.2.count true) := by
  intro f
  induction f with
  | nil => intro s; simp [process_frame]
  | cons ct rest ih =>
    intro s
    cases hcl : is_box_like_shape cfg ct with
    | none => simp only [process_frame, hcl]; exact ih s
    | some cb =>
      simp only [process_frame, hcl, List.count_cons]
      have h1 := ih (considerCentroid cfg s cb.1).1
      have h2 := considerCentroid_count_eq cfg s cb.1
      cases hb : (considerCentroid cfg s cb.1).2 <;>
        simp [hb] at h2 ⊢ <;> omega

/-- Over a list of frames, `object_count` grows by exactly the number
of `true` decisions across all of them. -/
lemma processFrames_count (cfg : Config) :
    ∀ (frames : List (List Contour)) (s : CounterState),
      (processFrames cfg s frames).1.object_count
        = s.object_count + ((processFrames cfg s frames).2.count true) := by
  intro frames
  induction frames with
  | nil => intro s; simp [processFrames]
  | cons f rest ih =>
    intro s
    simp only [processFrames, List.count_append]
    have h1 := ih (process_frame cfg s f).1
    have h2 := process_frame_count cfg f s
    omega

/-- C3: across any sequence of processed frames, `object_count` equals
its starting value plus the number of counted-true decisions made by
the crossing tracker over those frames; for any non-reset operation the
count never decreases, and the reset operation sets it to 0. -/
theorem total_count_matches_decisions (cfg : Config) (s : CounterState)
    (frames : List (List Contour)) :
    (processFrames cfg s frames).1.object_count
      = s.object_count + ((processFrames cfg s frames).2.count true) ∧
    (∀ op : Op, op ≠ Op.rst →
        s.object_count ≤ (applyOp cfg s op).object_count) ∧
    (applyOp cfg s Op.rst).object_count = 0 := by
  refine ⟨processFrames_count cfg frames s, ?_, rfl⟩
  intro op hop
  cases op with
  | rst => exact absurd rfl hop
  | frame f =>
    have h := process_frame_count cfg f s
    simp only [applyOp]
    omega

/-- Witness for C3: one frame with a single accepted, counted contour
(centroid `(25, 255)`, at the default line) raises the count from 0 in
step with its single `true` decision; the empty-frame operation never
lowers the count. -/
theorem total_count_matches_decisions_witness :
    (processFrames defaultConfig initialState
        [[⟨0, 230, 50, 50, 2000⟩]]).1.object_count
      = initialState.object_count +
        ((processFrames defaultConfig initialState
            [[⟨0, 230, 50, 50, 2000⟩]]).2.count true) ∧
    initialState.object_count
      ≤ (applyOp defaultConfig initialState (Op.frame [])).object_count :=
  ⟨(total_count_matches_decisions defaultConfig initialState
      [[⟨0, 230, 50, 50, 2000⟩]]).1,
   (total_count_matches_decisions defaultConfig initialState
      [[⟨0, 230, 50, 50, 2000⟩]]).2.1 (Op.frame [])
     (fun h => Op.noConfusion h)⟩

/-- The bounded-deque append keeps the history length at most 100. -/
lemma dequeAppend_length_le (l : List Centroid) (c : Centroid)
    (h : l.length ≤ 100) : (dequeAppend l c).length ≤ 100 := by
  unfold dequeAppend
  split_ifs with hlen
  · simp
    omega
  · simp [List.length_tail]
    omega

/-- One counting decision preserves the history bound. -/
lemma considerCentroid_length_le (cfg : Config) (s : CounterState)
    (c : Centroid) (h : s.tracked_objects.length ≤ 100) :
    (considerCentroid cfg s c).1.tracked_objects.length ≤ 100 := by
  unfold considerCentroid
  split
  · exact dequeAppend_length_le _ _ h
  · exact h

/-- One frame preserves the history bound. -/
lemma process_frame_length_le (cfg : Config) :
    ∀ (f : List Contour) (s : CounterState),
      s.tracked_objects.length ≤ 100 →
      (process_frame cfg s f).1.tracked_objects.length ≤ 100 := by
  intro f
  induction f with
  | nil => intro s h; simpa [process_frame] using h
  | cons ct rest ih =>
    intro s h
    cases hcl : is_box_like_shape cfg ct with
    | none => simp only [process_frame, hcl]; exact ih s h
    | some cb =>
      simp only [process_frame, hcl]
      exact ih _ (considerCentroid_length_le cfg s cb.1 h)

/-- Any sequence of frame and reset operations preserves the history
bound. -/
lemma runOps_length_le (cfg : Config) :
    ∀ (ops : List Op) (s : CounterState),
      s.tracked_objects.length ≤ 100 →
      (runOps cfg s ops).tracked_objects.length ≤ 100 := by
  intro ops
  induction ops with
  | nil => intro s h; exact h
  | cons op rest ih =>
    intro s h
    cases op with
    | frame f =>
      exact ih _ (process_frame_length_le cfg f s h)
    | rst =>
      exact ih _ (by simp [applyOp, reset])

/-- C4: starting from the freshly initialised session, the history
length stays at most 100 after any sequence of frames and resets, and
an append performed while the history already holds 100 entries evicts
the oldest (leftmost) entry. -/
theorem history_bounded_and_evicts (cfg : Config) (ops : List Op)
    (l : List Centroid) (c : Centroid) :
    (runOps cfg initialState ops).tracked_objects.length ≤ 100 ∧
    (l.length = 100 → dequeAppend l c = l.tail ++ [c]) := by
  constructor
  · exact runOps_length_le cfg ops initialState (by simp [initialState])
  · intro h100
    unfold dequeAppend
    split_ifs with hlen
    · exact absurd hlen (by omega)
    · rfl

/-- Witness for C4: the empty operation sequence keeps the (empty)
history within bound, and appending to a concrete 100-entry history
drops its head. -/
theorem history_bounded_and_evicts_witness :
    (runOps defaultConfig initialState []).tracked_objects.length ≤ 100 ∧
    (List.replicate 100 ((0 : ℤ), (0 : ℤ))).length = 100 ∧
    dequeAppend (List.replicate 100 ((0 : ℤ), (0 : ℤ))) (5, 5)
      = (List.replicate 100 ((0 : ℤ), (0 : ℤ))).tail ++ [(5, 5)] := by
  have h := history_bounded_and_evicts defaultConfig []
    (List.replicate 100 ((0 : ℤ), (0 : ℤ))) (5, 5)
  exact ⟨h.1, by simp, h.2 (by simp)⟩

/-- C9 counterexample data: a contour whose centroid is `(cx, 250)` —
bounding box 50×50 at `(cx - 25, 225)`, area 2000, accepted by the
default configuration. -/
def contourAt (cx : ℤ) : Contour := ⟨cx - 25, 225, 50, 50, 2000⟩

/-- C9 counterexample frame: the candidate at x 0 is counted first,
then 100 candidates spaced 50 apart (each exactly at the threshold, so
none is a duplicate) are counted and together evict the first centroid
from the 100-slot history, and finally a candidate with the identical
centroid `(0, 250)` arrives. -/
def cexFrame : List Contour :=
  contourAt 0 ::
    (((List.range 100).map fun k => contourAt (((k : ℤ) + 1) * 50)) ++
      [contourAt 0])

set_option maxRecDepth 40000 in
set_option maxHeartbeats 4000000 in
/-- C9 counterexample: in this single frame the first candidate
(centroid `(0, 250)`) is counted, and the last candidate — at distance
0, strictly within the threshold of that counted centroid — is ALSO
counted rather than suppressed, because the 100 counts in between
evicted the first centroid from the bounded history.  The final
conjunct records that the two centroids are within the duplicate
threshold of each other, so the claim's suppression condition applies.
This refutes the claim that every later same-frame candidate within the
threshold of a counted centroid is suppressed. -/
theorem later_candidate_not_suppressed_cex :
    (process_frame defaultConfig initialState cexFrame).2.2.head? = some true ∧
    (process_frame defaultConfig initialState cexFrame).2.2.getLast? = some true ∧
    is_duplicate_object defaultConfig [(0, 250)] (0, 250) = true := by
  refine ⟨?_, ?_, ?_⟩ <;> with_unfolding_all decide

/-- C9 (amended): the counting loop mutates the history immediately —
a counted centroid is in the history as soon as its decision is made —
and while a counted centroid remains in the history, every later
candidate whose centroid lies strictly within the distance threshold of
it is suppressed as a duplicate: the call reports `false` and leaves
the state unchanged.  (The counted centroid stops protecting only once
100 subsequent counts have evicted it, as the counterexample shows.) -/
theorem counted_centroid_suppresses_nearby (cfg : Config)
    (s s1 : CounterState) (c1 c2 : Centroid)
    (hc : considerCentroid cfg s c1 = (s1, true)) :
    c1 ∈ s1.tracked_objects ∧
    ∀ s2 : CounterState, c1 ∈ s2.tracked_objects →
      Real.sqrt (((c2.1 : ℝ) - (c1.1 : ℝ)) ^ 2 + ((c2.2 : ℝ) - (c1.2 : ℝ)) ^ 2)
          < (cfg.distance_threshold : ℝ) →
      considerCentroid cfg s2 c2 = (s2, false) := by
  obtain ⟨hcl, hs1⟩ := considerCentroid_counted cfg s s1 c1 hc
  constructor
  · rw [hs1]
    exact mem_dequeAppend _ _
  · intro s2 hmem hdist
    have hdup : is_duplicate_object cfg s2.tracked_objects c2 = true :=
      (is_duplicate_object_iff cfg s2.tracked_objects c2).mpr ⟨c1, hmem, hdist⟩
    unfold considerCentroid
    rw [hdup]
    simp

/-- Witness for C9's amended claim: after `(100, 250)` is counted into
the fresh session, the immediately following candidate `(102, 251)` —
at distance √5 < 50 — is suppressed with the state unchanged. -/
theorem counted_centroid_suppresses_nearby_witness :
    considerCentroid defaultConfig initialState (100, 250)
      = (⟨1, [(100, 250)]⟩, true) ∧
    considerCentroid defaultConfig ⟨1, [(100, 250)]⟩ (102, 251)
      = (⟨1, [(100, 250)]⟩, false) := by
  have hc : considerCentroid defaultConfig initialState (100, 250)
      = (⟨1, [(100, 250)]⟩, true) := by
    with_unfolding_all decide
  refine ⟨hc, ?_⟩
  have hdist :
      Real.sqrt ((((102 : ℤ) : ℝ) - ((100 : ℤ) : ℝ)) ^ 2 +
          (((251 : ℤ) : ℝ) - ((250 : ℤ) : ℝ)) ^ 2)
        < (defaultConfig.distance_threshold : ℝ) := by
    have he : ((((102 : ℤ) : ℝ) - ((100 : ℤ) : ℝ)) ^ 2 +
        (((251 : ℤ) : ℝ) - ((250 : ℤ) : ℝ)) ^ 2) = 5 := by
      norm_num
    have ht : (defaultConfig.distance_threshold : ℝ) = 50 := by
      norm_num [defaultConfig]
    rw [he, ht]
    exact (Real.sqrt_lt' (by norm_num)).mpr (by norm_num)
  exact (counted_centroid_suppresses_nearby defaultConfig initialState
      ⟨1, [(100, 250)]⟩ (100, 250) (102, 251) hc).2
    ⟨1, [(100, 250)]⟩ (by simp) hdist

end MotionCount
